import Mathlib

/-!
# Verification of the hybrid paper-recommender core (`src/modeling.py`)

Shallow embedding of the modeling pipeline of the Research_peper_recommonder
repository:

* `load_and_process_data` — corpus preparation (combine title/summary,
  parse publication dates, drop unusable rows);
* `create_similarity_matrix` — TF-IDF vectorization (unigrams + bigrams,
  stop words, `min_df = 3`) followed by pairwise cosine similarity;
* `calculate_date_boost` — linearly decaying recency bonus;
* `recommend_papers` — hybrid ranking (similarity + boost, stable
  descending sort, top-N, score column attached by row label).

Conventions of the embedding:

* Instants (`datetime.date` values) are integer day numbers, so
  `(today - pub_date).days` becomes integer subtraction.
* Python floats are modelled by exact rationals `ℚ`.
* A pandas `DataFrame` of papers is a `List Paper`; the pandas row *label*
  (the index value that survives `dropna`, distinct from the row's
  position) is the `label` field.
* numpy row indexing `cosine_sim[index]` follows numpy semantics: an
  integer `index` with `-N ≤ index < N` selects row `index mod N`
  (negative values wrap around); anything else raises `IndexError`,
  which `recommend_papers` converts into a `CustomException`.  Fallible
  functions return `Except String _`.
* `datetime.now()` is modelled by an explicit clock stream
  `clock : ℕ → ℤ`; the k-th call of `calculate_date_boost` inside one
  `recommend_papers` call reads `clock k`.
-/

namespace RPR

open scoped List

/-! ## Date boost (`calculate_date_boost`, modeling.py lines 66-77) -/

/-- The body of `calculate_date_boost` as a function of the whole-day
difference `d = (today - pub_date).days`:
`if d > 1095: return 0.0; return max(0.0, (1 - d/1095) * 0.05)`. -/
def dateBoost (d : ℤ) : ℚ :=
  if 1095 < d then 0
  else max 0 ((1 - (d : ℚ) / 1095) * (5 / 100))

/-- `calculate_date_boost(published_dt)` with the two `date` values made
explicit: `days_since_pub = (today - pub_date).days`, then `dateBoost`. -/
def calculate_date_boost (today pub_date : ℤ) : ℚ :=
  dateBoost (today - pub_date)

/-! ## Corpus preparation (`load_and_process_data`, modeling.py lines 14-32) -/

/-- A raw CSV row.  Missing cells (pandas `NaN`) are `none`. -/
structure RawRecord where
  id : String
  title : Option String
  summary : Option String
  authors : Option String
  published : Option String
deriving DecidableEq, Repr

/-- `df['title'].fillna('') + ' ' + df['summary'].fillna('')`. -/
def combined_text (r : RawRecord) : String :=
  r.title.getD "" ++ " " ++ r.summary.getD ""

/-- `pd.to_datetime(df['published'], errors='coerce')` on one cell: a
missing cell stays missing (`NaT`), otherwise the string is parsed by
`parse` (the embedding's parameter for pandas' datetime parser),
`none` meaning `NaT`. -/
def parse_published (parse : String → Option ℤ) (r : RawRecord) : Option ℤ :=
  r.published.bind parse

/-- A row of the processed DataFrame: the surviving original columns plus
the `combined_text` and `published_dt` columns added by preparation. -/
structure ProcRecord where
  raw : RawRecord
  combined_text : String
  published_dt : ℤ
deriving DecidableEq, Repr

/-- `load_and_process_data` on an already-read CSV (the `pd.read_csv`
I/O is outside the embedding).  The source performs, in order:
`df['combined_text'] = title.fillna('') + ' ' + summary.fillna('')`;
`df.dropna(subset=['combined_text', 'published'])` (drops rows with a
missing `published` cell — `combined_text` is never `NaN` because both
sides were `fillna`'d); `df['published_dt'] = to_datetime(published,
errors='coerce')`; `df.dropna(subset=['published_dt'])` (drops rows whose
date string failed to parse).  The net effect is this `filterMap`:
a row survives iff its `published` cell is present and parses. -/
def load_and_process_data (parse : String → Option ℤ) (rows : List RawRecord) :
    List ProcRecord :=
  rows.filterMap (fun r =>
    (parse_published parse r).map (fun d => ⟨r, combined_text r, d⟩))

/-! ## Hybrid ranking (`recommend_papers`, modeling.py lines 79-109) -/

/-- One row of the processed DataFrame as `recommend_papers` sees it.
`label` is the pandas index value of the row (after `load_and_process_data`
these are the row's position in the *raw* CSV, so they have gaps when rows
were dropped and need not equal the row's position in the DataFrame). -/
structure Paper where
  label : ℕ
  title : String
  authors : String
  published : String
  published_dt : ℤ
deriving DecidableEq, Repr

/-- Placeholder used to make positional lookups total; every theorem below
constrains the positions to be in range, where the placeholder is never hit
(in Python an out-of-range `df.iloc[i]` would raise instead). -/
def dummyPaper : Paper := ⟨0, "", "", "", 0⟩

/-- The loop of `recommend_papers` (lines 84-89): iterate over
`enumerate(cosine_sim[index])`, skip `i == index`, and give every other
candidate `score + calculate_date_boost(df.iloc[i]['published_dt'])`.
`index` is the *raw* argument (possibly negative), exactly as compared by
`i != index`; the k-th surviving candidate's boost reads `clock k`
(`datetime.now()` is called once per candidate, inside
`calculate_date_boost`). -/
def hybrid_scores (df : List Paper) (row : List ℚ) (index : ℤ) (clock : ℕ → ℤ) :
    List (ℕ × ℚ) :=
  (((row.enum).filter (fun p => decide ((p.1 : ℤ) ≠ index))).enum).map
    (fun q => (q.2.1, q.2.2 +
      calculate_date_boost (clock q.1) (df.getD q.2.1 dummyPaper).published_dt))

/-- The comparator of `sorted(hybrid_scores, key=lambda x: x[1], reverse=True)`:
Python's sort is stable, and with `reverse=True` it orders by descending key
while ties keep their original relative order — i.e. it is the stable
`mergeSort` under "greater-or-equal key". -/
def pyDescLE (a b : ℕ × ℚ) : Bool := decide (b.2 ≤ a.2)

/-- Line 91: the candidate list, stably sorted by descending hybrid score. -/
def sorted_hybrid_scores (df : List Paper) (row : List ℚ) (index : ℤ)
    (clock : ℕ → ℤ) : List (ℕ × ℚ) :=
  (hybrid_scores df row index clock).mergeSort pyDescLE

/-- Lines 99-100: `final_scores_map = {idx: score for idx, score in
hybrid_scores}` followed by `.get(label, 0)`.  The dictionary keys (candidate
positions) are pairwise distinct, so the dict lookup is `find?` on the list. -/
def final_scores_map (hs : List (ℕ × ℚ)) (label : ℕ) : ℚ :=
  ((hs.find? (fun q => q.1 == label)).map (·.2)).getD 0

/-- `recommend_papers(df, cosine_sim, index, top_n)`.  The matrix is a list
of rows; numpy raises `IndexError` on `cosine_sim[index]` iff
`index < -len` or `index ≥ len`, which the `except IndexError` arm turns
into a `CustomException` (modelled as `.error`); a negative in-range `index`
wraps around to row `len + index`.  Otherwise (lines 82-102): build the
hybrid scores, sort them stably by descending score, take the first `top_n`
positions, select those rows positionally (`df.iloc[top_indices]`), and
attach to each selected row the score found under that row's *label* in
`final_scores_map` (`.get(i, 0)` — absent labels give `0`). -/
def recommend_papers (df : List Paper) (M : List (List ℚ)) (index : ℤ)
    (top_n : ℕ) (clock : ℕ → ℤ) : Except String (List (Paper × ℚ)) :=
  if index < -(M.length : ℤ) ∨ (M.length : ℤ) ≤ index then
    .error "Paper index not found in processed data."
  else
    let row := M.getD (if index < 0 then index + M.length else index).toNat []
    let hs := sorted_hybrid_scores df row index clock
    .ok ((hs.take top_n).map (fun p =>
      let paper := df.getD p.1 dummyPaper
      (paper, final_scores_map hs paper.label)))

/-! ## Basic facts about the date boost -/

/-- The boost is never negative: both branches return `0` or a `max` with `0`. -/
theorem dateBoost_nonneg (d : ℤ) : 0 ≤ dateBoost d := by
  unfold dateBoost
  split
  · exact le_refl 0
  · exact le_max_left 0 _

/-- The boost is antitone in the day count (over all of `ℤ`). -/
theorem dateBoost_antitone {d e : ℤ} (h : d ≤ e) : dateBoost e ≤ dateBoost d := by
  unfold dateBoost
  by_cases he : 1095 < e
  · rw [if_pos he]
    split
    · exact le_refl 0
    · exact le_max_left 0 _
  · have hd : ¬ 1095 < d := fun hd => he (lt_of_lt_of_le hd h)
    rw [if_neg he, if_neg hd]
    have hde : (d : ℚ) ≤ (e : ℚ) := by exact_mod_cast h
    have : (1 - (e : ℚ) / 1095) * (5 / 100) ≤ (1 - (d : ℚ) / 1095) * (5 / 100) := by
      have h1 : (d : ℚ) / 1095 ≤ (e : ℚ) / 1095 := by gcongr
      nlinarith
    exact max_le_max (le_refl 0) this

/-- C3: for every non-negative whole-day count `d`, the boost is `0` past
1095 days, is `max 0 ((1 − d/1095)·0.05)` (equivalently the linear function
`(1095 − d)/21900`) up to 1095 days, takes the values `0.05` at `d = 0` and
`0` at `d = 1095`, and is monotonically non-increasing in `d`. -/
theorem dateBoost_c3 (d : ℤ) (hd : 0 ≤ d) :
    (1095 < d → dateBoost d = 0) ∧
    (d ≤ 1095 → dateBoost d = max 0 ((1 - (d : ℚ) / 1095) * (5 / 100)) ∧
      dateBoost d = (1095 - (d : ℚ)) / 21900) ∧
    dateBoost 0 = 5 / 100 ∧
    dateBoost 1095 = 0 ∧
    (∀ e : ℤ, d ≤ e → dateBoost e ≤ dateBoost d) := by
  refine ⟨fun h => by simp [dateBoost, h], fun h => ?_, by norm_num [dateBoost],
    by norm_num [dateBoost], fun e he => dateBoost_antitone he⟩
  have hd' : (0 : ℚ) ≤ (d : ℚ) := by exact_mod_cast hd
  have h' : (d : ℚ) ≤ 1095 := by exact_mod_cast h
  have hform : (1 - (d : ℚ) / 1095) * (5 / 100) = (1095 - (d : ℚ)) / 21900 := by
    field_simp
    ring
  have hpos : (0 : ℚ) ≤ (1 - (d : ℚ) / 1095) * (5 / 100) := by nlinarith
  constructor
  · simp [dateBoost, not_lt.mpr h]
  · rw [dateBoost, if_neg (not_lt.mpr h), max_eq_right hpos, hform]

/-- Witness for `dateBoost_c3` at the concrete day count `d = 3`. -/
theorem dateBoost_c3_witness :
    (1095 < (3 : ℤ) → dateBoost 3 = 0) ∧
    ((3 : ℤ) ≤ 1095 → dateBoost 3 = max 0 ((1 - ((3 : ℤ) : ℚ) / 1095) * (5 / 100)) ∧
      dateBoost 3 = (1095 - ((3 : ℤ) : ℚ)) / 21900) ∧
    dateBoost 0 = 5 / 100 ∧
    dateBoost 1095 = 0 ∧
    (∀ e : ℤ, (3 : ℤ) ≤ e → dateBoost e ≤ dateBoost 3) :=
  dateBoost_c3 3 (by decide)

/-- C8 fails as stated: a paper published 1095 days *after* the evaluation
clock (`daysSincePublication = −1095`) gets a boost of `0.1`, above the
claimed cap `0.05`. -/
theorem dateBoost_c8_counterexample :
    dateBoost (-1095) = 1 / 10 ∧ ¬ dateBoost (-1095) ≤ 5 / 100 := by
  constructor
  · norm_num [dateBoost]
  · norm_num [dateBoost]

/-- C8 (amended): the boost is at least `0` for every day count, and is at
most `0.05` whenever the publication instant is not in the future of the
evaluation clock (`0 ≤ daysSincePublication`). -/
theorem dateBoost_c8 (d : ℤ) :
    0 ≤ dateBoost d ∧ (0 ≤ d → dateBoost d ≤ 5 / 100) := by
  refine ⟨dateBoost_nonneg d, fun hd => ?_⟩
  unfold dateBoost
  split
  · norm_num
  · have hd' : (0 : ℚ) ≤ (d : ℚ) := by exact_mod_cast hd
    apply max_le (by norm_num)
    nlinarith

/-- Witness for `dateBoost_c8` at the concrete day count `d = 7`. -/
theorem dateBoost_c8_witness : 0 ≤ dateBoost 7 ∧ dateBoost 7 ≤ 5 / 100 :=
  ⟨(dateBoost_c8 7).1, (dateBoost_c8 7).2 (by decide)⟩

/-! ## Facts about corpus preparation -/

/-- The combined text always contains the joining space, so it is never the
empty string (hence the "drop rows with empty combined text" clause of the
preparation contract is vacuous). -/
theorem combined_text_ne_empty (r : RawRecord) : combined_text r ≠ "" := by
  intro h
  have hlen := congrArg String.length h
  simp only [combined_text, String.length_append] at hlen
  have h1 : (" " : String).length = 1 := rfl
  have h0 : ("" : String).length = 0 := rfl
  omega

/-- C4: preparation drops exactly the rows whose combined text is empty or
whose `published` field fails to parse (surviving rows keep their relative
order, as the result is a `filter` of the input), and every surviving row
carries its own combined text and its own parsed timestamp. -/
theorem load_and_process_data_c4 (parse : String → Option ℤ) (rows : List RawRecord) :
    (load_and_process_data parse rows).map (·.raw)
      = rows.filter (fun r =>
          !(decide (combined_text r = "") || decide (parse_published parse r = none))) ∧
    ∀ p ∈ load_and_process_data parse rows,
      p.combined_text = combined_text p.raw ∧
      parse_published parse p.raw = some p.published_dt := by
  constructor
  · induction rows with
    | nil => rfl
    | cons r t ih =>
      simp only [load_and_process_data, List.filterMap_cons, List.filter_cons] at *
      cases hp : parse_published parse r with
      | none => simpa [hp, combined_text_ne_empty r] using ih
      | some d => simpa [hp, combined_text_ne_empty r] using ih
  · intro p hp
    simp only [load_and_process_data, List.mem_filterMap, Option.map_eq_some'] at hp
    obtain ⟨r, _, d, hd, rfl⟩ := hp
    exact ⟨rfl, hd⟩

/-! ## Generic list facts used for the ranking proofs -/

/-- Two distinct members of a list occur in one of the two relative orders. -/
theorem pair_sublist_or {α : Type _} {a b : α} :
    ∀ {l : List α}, a ∈ l → b ∈ l → a ≠ b → [a, b] <+ l ∨ [b, a] <+ l := by
  intro l
  induction l with
  | nil => intro h; cases h
  | cons c t ih =>
    intro ha hb hne
    rcases List.mem_cons.mp ha with rfl | ha'
    · have hb' : b ∈ t := by
        rcases List.mem_cons.mp hb with rfl | h
        · exact absurd rfl hne
        · exact h
      exact Or.inl (List.cons_sublist_cons.mpr (List.singleton_sublist.mpr hb'))
    · rcases List.mem_cons.mp hb with rfl | hb'
      · exact Or.inr (List.cons_sublist_cons.mpr (List.singleton_sublist.mpr ha'))
      · rcases ih ha' hb' hne with h | h
        · exact Or.inl (h.cons c)
        · exact Or.inr (h.cons c)

/-- In a duplicate-free list, two elements cannot occur in both relative
orders. -/
theorem eq_of_pair_sublists {α : Type _} {a b : α} :
    ∀ {l : List α}, l.Nodup → [a, b] <+ l → [b, a] <+ l → a = b := by
  intro l
  induction l with
  | nil => intro _ h; cases h
  | cons c t ih =>
    intro hnd h1 h2
    have hc : c ∉ t := (List.nodup_cons.mp hnd).1
    cases h1 with
    | cons _ h1' =>
      cases h2 with
      | cons _ h2' => exact ih (List.Nodup.of_cons hnd) h1' h2'
      | cons₂ _ h2' =>
        exact absurd (h1'.subset (List.mem_cons_of_mem _ (List.mem_singleton.mpr rfl))) hc
    | cons₂ _ h1' =>
      cases h2 with
      | cons _ h2' =>
        exact absurd (h2'.subset (List.mem_cons_of_mem _ (List.mem_singleton.mpr rfl))) hc
      | cons₂ _ h2' => rfl

/-- Positions in `enumFrom` start at the offset. -/
theorem le_fst_of_mem_enumFrom {α : Type _} {p : ℕ × α} :
    ∀ {n : ℕ} {l : List α}, p ∈ l.enumFrom n → n ≤ p.1 := by
  intro n l
  induction l generalizing n with
  | nil => intro h; cases h
  | cons x t ih =>
    intro hp
    rcases List.mem_cons.mp hp with rfl | hp'
    · exact le_refl n
    · exact le_trans (Nat.le_succ n) (ih hp')

/-- The positions attached by `enumFrom` are strictly increasing. -/
theorem enumFrom_pairwise_fst_lt {α : Type _} :
    ∀ (n : ℕ) (l : List α), (l.enumFrom n).Pairwise (fun a b => a.1 < b.1)
  | _, [] => List.Pairwise.nil
  | n, x :: t => by
    rw [List.enumFrom_cons]
    refine List.Pairwise.cons ?_ (enumFrom_pairwise_fst_lt (n + 1) t)
    intro p hp
    exact lt_of_lt_of_le (Nat.lt_succ_self n) (le_fst_of_mem_enumFrom hp)

/-- Mapping a function of the element part over `enum` is mapping it over
the underlying list. -/
theorem enum_map_snd_comp {α β : Type _} (l : List α) (f : α → β) :
    (l.enum).map (fun q => f q.2) = l.map f := by
  have h : (l.enum).map (fun q => f q.2) = ((l.enum).map Prod.snd).map f := by
    rw [List.map_map]; rfl
  rw [h, List.enum, List.enumFrom_map_snd]

/-! ## Structure of the candidate list -/

/-- The candidate positions of `hybrid_scores` are the positions of the
filtered enumeration (adding the boost does not touch the position). -/
theorem hybrid_scores_map_fst (df : List Paper) (row : List ℚ) (index : ℤ)
    (clock : ℕ → ℤ) :
    (hybrid_scores df row index clock).map (·.1)
      = ((row.enum).filter (fun p => decide ((p.1 : ℤ) ≠ index))).map (·.1) := by
  simp only [hybrid_scores, List.map_map]
  exact enum_map_snd_comp ((row.enum).filter (fun p => decide ((p.1 : ℤ) ≠ index)))
    (fun p : ℕ × ℚ => p.1)

/-- Candidate positions are strictly increasing (candidates are visited in
corpus order). -/
theorem hybrid_scores_pairwise_fst_lt (df : List Paper) (row : List ℚ)
    (index : ℤ) (clock : ℕ → ℤ) :
    (hybrid_scores df row index clock).Pairwise (fun a b => a.1 < b.1) := by
  have hfilter : ((row.enum).filter (fun p => decide ((p.1 : ℤ) ≠ index))).Pairwise
      (fun a b => a.1 < b.1) :=
    (enumFrom_pairwise_fst_lt 0 row).filter _
  have h1 : (((row.enum).filter (fun p => decide ((p.1 : ℤ) ≠ index))).map (·.1)).Pairwise
      (· < ·) := List.pairwise_map.mpr hfilter
  rw [← hybrid_scores_map_fst df row index clock] at h1
  exact List.pairwise_map.mp h1

/-- Every candidate position differs from the query index (`i != index`). -/
theorem hybrid_scores_fst_ne (df : List Paper) (row : List ℚ) (index : ℤ)
    (clock : ℕ → ℤ) :
    ∀ p ∈ hybrid_scores df row index clock, (p.1 : ℤ) ≠ index := by
  intro p hp
  simp only [hybrid_scores, List.mem_map] at hp
  obtain ⟨q, hq, rfl⟩ := hp
  have h2 : q.2 ∈ (row.enum).filter (fun p => decide ((p.1 : ℤ) ≠ index)) := by
    have := List.mem_map_of_mem Prod.snd hq
    rwa [List.enum, List.enumFrom_map_snd] at this
  simpa using List.of_mem_filter h2

/-- Filtering one position out of an enumeration: the length drops by one
exactly when the removed position lies in the enumerated range. -/
theorem enumFrom_filter_ne_length {α : Type _} (index : ℤ) :
    ∀ (n : ℕ) (l : List α),
      ((l.enumFrom n).filter (fun p => decide ((p.1 : ℤ) ≠ index))).length
        = if (n : ℤ) ≤ index ∧ index < (n : ℤ) + l.length then l.length - 1 else l.length
  | n, [] => by simp
  | n, x :: t => by
    rw [List.enumFrom_cons, List.filter_cons]
    simp only [List.length_cons]
    by_cases hn : (n : ℤ) = index
    · rw [if_neg (by simp [hn])]
      rw [enumFrom_filter_ne_length index (n + 1) t]
      rw [if_neg (by push_cast; omega), if_pos (by push_cast; omega)]
      omega
    · rw [if_pos (by simp [hn])]
      simp only [List.length_cons]
      rw [enumFrom_filter_ne_length index (n + 1) t]
      by_cases hin : ((n : ℤ) + 1) ≤ index ∧ index < ((n : ℤ) + 1) + t.length
      · rw [if_pos (by push_cast at hin ⊢; omega), if_pos (by push_cast at hin ⊢; omega)]
        have ht : 1 ≤ t.length := by push_cast at hin; omega
        omega
      · rw [if_neg (by push_cast at hin ⊢; omega), if_neg (by push_cast at hin ⊢; omega)]

/-- With a valid query index, there are exactly `N − 1` candidates. -/
theorem hybrid_scores_length (df : List Paper) (row : List ℚ) (index : ℤ)
    (clock : ℕ → ℤ) (h0 : 0 ≤ index) (hlen : index < (row.length : ℤ)) :
    (hybrid_scores df row index clock).length = row.length - 1 := by
  simp only [hybrid_scores, List.length_map, List.enum, List.enumFrom_length]
  rw [enumFrom_filter_ne_length index 0 row]
  rw [if_pos (by push_cast; omega)]

/-! ## The stable descending sort -/

theorem pyDescLE_trans : ∀ (a b c : ℕ × ℚ), pyDescLE a b → pyDescLE b c → pyDescLE a c := by
  intro a b c hab hbc
  simp only [pyDescLE, decide_eq_true_eq] at *
  exact le_trans hbc hab

theorem pyDescLE_total : ∀ (a b : ℕ × ℚ), pyDescLE a b || pyDescLE b a := by
  intro a b
  simp only [pyDescLE, Bool.or_eq_true, decide_eq_true_eq]
  exact le_total b.2 a.2

/-- The sorted candidate list is ordered by strictly descending hybrid
score, with exact score ties ordered by ascending candidate position: this
is the combination of `mergeSort`'s sortedness and its stability, applied
to a candidate list whose positions strictly increase. -/
theorem sorted_hybrid_scores_pairwise (df : List Paper) (row : List ℚ)
    (index : ℤ) (clock : ℕ → ℤ) :
    (sorted_hybrid_scores df row index clock).Pairwise
      (fun a b => b.2 < a.2 ∨ (a.2 = b.2 ∧ a.1 < b.1)) := by
  set hs := hybrid_scores df row index clock with hhs
  have hfst : hs.Pairwise (fun a b => a.1 < b.1) :=
    hybrid_scores_pairwise_fst_lt df row index clock
  have hnodupfst : (hs.map (·.1)).Nodup :=
    (List.pairwise_map.mpr hfst).imp (fun h => Nat.ne_of_lt h)
  have hperm : hs.mergeSort pyDescLE ~ hs := List.mergeSort_perm hs pyDescLE
  have hSnodupfst : ((hs.mergeSort pyDescLE).map (·.1)).Nodup :=
    ((hperm.map (·.1)).nodup_iff).mpr hnodupfst
  have hsorted : (hs.mergeSort pyDescLE).Pairwise (fun a b => pyDescLE a b) :=
    List.sorted_mergeSort pyDescLE_trans pyDescLE_total hs
  show (hs.mergeSort pyDescLE).Pairwise _
  rw [List.pairwise_iff_forall_sublist]
  intro a b hab
  have hle : pyDescLE a b := List.pairwise_iff_forall_sublist.mp hsorted hab
  simp only [pyDescLE, decide_eq_true_eq] at hle
  rcases lt_or_eq_of_le hle with hlt | heq
  · exact Or.inl hlt
  · refine Or.inr ⟨heq.symm, ?_⟩
    have hfstpair : [a.1, b.1] <+ (hs.mergeSort pyDescLE).map (·.1) := by
      have := hab.map (fun p : ℕ × ℚ => p.1)
      simpa using this
    have hne1 : a.1 ≠ b.1 := by
      have hpairnd := hfstpair.nodup hSnodupfst
      simpa [List.nodup_cons] using fun h => (List.nodup_cons.mp hpairnd).1 (by simp [h])
    by_contra hnot
    have hba1 : b.1 < a.1 := by omega
    have hahs : a ∈ hs := hperm.subset (hab.subset (by simp))
    have hbhs : b ∈ hs := hperm.subset (hab.subset (by simp))
    have hne : a ≠ b := fun h => hne1 (congrArg Prod.fst h)
    rcases pair_sublist_or hahs hbhs hne with h | h
    · have := List.pairwise_iff_forall_sublist.mp hfst h
      omega
    · have hba : pyDescLE b a := by simp [pyDescLE, heq]
      have hS : [b, a] <+ hs.mergeSort pyDescLE :=
        List.pair_sublist_mergeSort pyDescLE_trans pyDescLE_total hba h
      have h2 : [b.1, a.1] <+ (hs.mergeSort pyDescLE).map (·.1) := by
        have := hS.map (fun p : ℕ × ℚ => p.1)
        simpa using this
      exact hne1 (eq_of_pair_sublists hSnodupfst hfstpair h2)

/-! ## Claim C1: contract of `recommend_papers` for valid inputs -/

/-- C1: with a matched (corpus, matrix) pair, a valid query index and
`topN ≤ N − 1`, `recommend_papers` succeeds, returning exactly the first
`topN` sorted candidates: the result is their image under positional row
selection plus the label-keyed score map, there are exactly `topN` of them,
none of them is the query position, and they are ordered by descending
hybrid score with exact ties broken by ascending original corpus
position. -/
theorem recommend_papers_c1 (df : List Paper) (M : List (List ℚ)) (index : ℤ)
    (top_n : ℕ) (clock : ℕ → ℤ)
    (hM : M.length = df.length)
    (hrow : ∀ r ∈ M, r.length = df.length)
    (h0 : 0 ≤ index) (hN : index < (df.length : ℤ))
    (htop : top_n ≤ df.length - 1) :
    recommend_papers df M index top_n clock
        = .ok (((sorted_hybrid_scores df (M.getD index.toNat []) index clock).take top_n).map
            (fun p => (df.getD p.1 dummyPaper,
              final_scores_map (sorted_hybrid_scores df (M.getD index.toNat []) index clock)
                (df.getD p.1 dummyPaper).label))) ∧
    ((sorted_hybrid_scores df (M.getD index.toNat []) index clock).take top_n).length = top_n ∧
    (∀ p ∈ (sorted_hybrid_scores df (M.getD index.toNat []) index clock).take top_n,
      (p.1 : ℤ) ≠ index) ∧
    ((sorted_hybrid_scores df (M.getD index.toNat []) index clock).take top_n).Pairwise
      (fun a b => b.2 < a.2 ∨ (a.2 = b.2 ∧ a.1 < b.1)) := by
  have hguard : ¬(index < -(M.length : ℤ) ∨ (M.length : ℤ) ≤ index) := by
    rw [hM]; omega
  have hlt : index.toNat < M.length := by rw [hM]; omega
  have hrowmem : M.getD index.toNat [] ∈ M := by
    rw [List.getD_eq_getElem M [] hlt]
    exact List.getElem_mem hlt
  have hrlen : (M.getD index.toNat []).length = df.length := hrow _ hrowmem
  refine ⟨?_, ?_, ?_, ?_⟩
  · simp only [recommend_papers, if_neg hguard, if_neg (not_lt.mpr h0)]
  · simp only [sorted_hybrid_scores, List.length_take, List.length_mergeSort]
    rw [hybrid_scores_length df _ index clock h0 (by rw [hrlen]; exact hN), hrlen]
    exact Nat.min_eq_left htop
  · intro p hp
    have hp' : p ∈ hybrid_scores df (M.getD index.toNat []) index clock :=
      (List.mergeSort_perm _ pyDescLE).subset ((List.take_sublist _ _).subset hp)
    exact hybrid_scores_fst_ne df _ index clock p hp'
  · exact List.Pairwise.sublist (List.take_sublist _ _)
      (sorted_hybrid_scores_pairwise df (M.getD index.toNat []) index clock)

/-- Fixture: a gap-free corpus of three papers (labels equal positions),
all published on day 0, with a matched 3×3 similarity matrix; the clock is
fixed far in the future so every boost is 0. -/
def corpus3 : List Paper :=
  [⟨0, "A", "a", "2010-01-01", 0⟩, ⟨1, "B", "b", "2010-01-02", 0⟩,
    ⟨2, "C", "c", "2010-01-03", 0⟩]

def matrix3 : List (List ℚ) :=
  [[1, 1/2, 3/4], [1/2, 1, 1/4], [3/4, 1/4, 1]]

/-- Witness for `recommend_papers_c1`: query index 0, `topN = 2` on the
three-paper fixture. -/
theorem recommend_papers_c1_witness :
    recommend_papers corpus3 matrix3 0 2 (fun _ => 10000)
        = .ok (((sorted_hybrid_scores corpus3 (matrix3.getD (0 : ℤ).toNat []) 0
              (fun _ => 10000)).take 2).map
            (fun p => (corpus3.getD p.1 dummyPaper,
              final_scores_map (sorted_hybrid_scores corpus3 (matrix3.getD (0 : ℤ).toNat []) 0
                  (fun _ => 10000))
                (corpus3.getD p.1 dummyPaper).label))) ∧
    ((sorted_hybrid_scores corpus3 (matrix3.getD (0 : ℤ).toNat []) 0
        (fun _ => 10000)).take 2).length = 2 ∧
    (∀ p ∈ (sorted_hybrid_scores corpus3 (matrix3.getD (0 : ℤ).toNat []) 0
        (fun _ => 10000)).take 2, (p.1 : ℤ) ≠ 0) ∧
    ((sorted_hybrid_scores corpus3 (matrix3.getD (0 : ℤ).toNat []) 0
        (fun _ => 10000)).take 2).Pairwise
      (fun a b => b.2 < a.2 ∨ (a.2 = b.2 ∧ a.1 < b.1)) :=
  recommend_papers_c1 corpus3 matrix3 0 2 (fun _ => 10000) (by decide) (by decide)
    (by decide) (by decide) (by decide)

/-! ## Claim C9: result count for any `topN ≥ 1`, including `topN > N − 1` -/

/-- C9: for every corpus of size `N ≥ 1` with matched matrix, valid query
index, and any requested `topN ≥ 1` (also above `N − 1`), `recommend_papers`
succeeds with exactly `min topN (N − 1)` results — in particular a corpus of
size 1 yields the empty result list. -/
theorem recommend_papers_c9 (df : List Paper) (M : List (List ℚ)) (index : ℤ)
    (top_n : ℕ) (clock : ℕ → ℤ)
    (hM : M.length = df.length)
    (hrow : ∀ r ∈ M, r.length = df.length)
    (h0 : 0 ≤ index) (hN : index < (df.length : ℤ)) (_htop : 1 ≤ top_n) :
    ∃ res, recommend_papers df M index top_n clock = .ok res ∧
      res.length = min top_n (df.length - 1) := by
  have hguard : ¬(index < -(M.length : ℤ) ∨ (M.length : ℤ) ≤ index) := by
    rw [hM]; omega
  have hlt : index.toNat < M.length := by rw [hM]; omega
  have hrowmem : M.getD index.toNat [] ∈ M := by
    rw [List.getD_eq_getElem M [] hlt]
    exact List.getElem_mem hlt
  have hrlen : (M.getD index.toNat []).length = df.length := hrow _ hrowmem
  refine ⟨((sorted_hybrid_scores df (M.getD index.toNat []) index clock).take top_n).map
      (fun p => (df.getD p.1 dummyPaper,
        final_scores_map (sorted_hybrid_scores df (M.getD index.toNat []) index clock)
          (df.getD p.1 dummyPaper).label)), ?_, ?_⟩
  · simp only [recommend_papers, if_neg hguard, if_neg (not_lt.mpr h0)]
  · simp only [List.length_map, sorted_hybrid_scores, List.length_take,
      List.length_mergeSort]
    rw [hybrid_scores_length df _ index clock h0 (by rw [hrlen]; exact hN), hrlen]

/-- Witness for `recommend_papers_c9`: a corpus of size 1 and `topN = 7`
yields zero results (`min 7 0 = 0`), not an error. -/
theorem recommend_papers_c9_witness :
    ∃ res, recommend_papers [⟨0, "A", "a", "2010-01-01", 0⟩] [[1]] 0 7
        (fun _ => 10000) = .ok res ∧
      res.length = min 7 ([(⟨0, "A", "a", "2010-01-01", 0⟩ : Paper)].length - 1) :=
  recommend_papers_c9 [⟨0, "A", "a", "2010-01-01", 0⟩] [[1]] 0 7 (fun _ => 10000)
    (by decide) (by decide) (by decide) (by decide) (by decide)

/-! ## Claim C6: the IndexOutOfRange condition -/

/-- C6 (amended): `recommend_papers` fails with the index error exactly when
`queryIndex` is outside numpy's accepted range `−N ≤ queryIndex < N`
(`N = len(cosine_sim)`): `cosine_sim[index]` accepts in-range negative
indices by wrapping around, so those calls do *not* fail.  The failure is an
`Except.error` value (the caught `IndexError` re-raised as
`CustomException`), not a crash. -/
theorem recommend_papers_c6 (df : List Paper) (M : List (List ℚ)) (index : ℤ)
    (top_n : ℕ) (clock : ℕ → ℤ) :
    (∃ msg, recommend_papers df M index top_n clock = .error msg)
      ↔ (index < -(M.length : ℤ) ∨ (M.length : ℤ) ≤ index) := by
  unfold recommend_papers
  by_cases h : index < -(M.length : ℤ) ∨ (M.length : ℤ) ≤ index
  · simp [h]
  · simp [h]

/-- C6 fails as stated: on a two-paper corpus the negative query index `−1`
is outside `0 ≤ queryIndex < N`, yet `recommend_papers` succeeds (numpy
wraps `−1` to row `N − 1`). -/
theorem recommend_papers_c6_counterexample :
    (recommend_papers
        [⟨0, "A", "a", "2010-01-01", 0⟩, ⟨1, "B", "b", "2010-01-02", 0⟩]
        [[1, 1/2], [1/2, 1]] (-1) 1 (fun _ => 10000)).isOk = true := rfl

/-! ## Claim C2: the score attached to each returned paper -/

/-- Fixture for C2: a prepared corpus from which one raw row was dropped, so
positions 0, 1 carry labels 0, 2; matched 2×2 matrix; publication dates are
day 0 and the clock is far in the future, so all boosts are 0. -/
def corpusGap : List Paper :=
  [⟨0, "A", "a", "2010-01-01", 0⟩, ⟨2, "B", "b", "2010-01-02", 0⟩]

def matrixGap : List (List ℚ) := [[1, 1/2], [1/2, 1]]

/-- C2 fails on the code: querying position 0 of the gapped corpus, the only
candidate is position 1 — the paper labelled 2 — with hybrid score
`1/2 + 0 = 1/2`; yet the returned pair carries score `0`, because line 100
looks the position-keyed score map up by row *label* (`.get(2, 0)` misses
the only key, `1`). -/
theorem recommend_papers_c2_bug :
    hybrid_scores corpusGap (matrixGap.getD 0 []) 0 (fun _ => 10000) = [(1, 1/2)] ∧
    recommend_papers corpusGap matrixGap 0 1 (fun _ => 10000)
      = .ok [(⟨2, "B", "b", "2010-01-02", 0⟩, 0)] := by
  constructor
  · norm_num [hybrid_scores, List.enum, List.enumFrom, calculate_date_boost, dateBoost,
      corpusGap, matrixGap]
  · norm_num [recommend_papers, matrixGap, sorted_hybrid_scores, hybrid_scores, List.enum,
      List.enumFrom, calculate_date_boost, dateBoost, corpusGap, final_scores_map]

/-! ## Claim C7: the evaluation clock -/

/-- Fixture for C7: a query paper plus two candidates with the *same*
publication instant (day 1000); the similarity row gives both candidates the
same base score 1/2. -/
def corpusClock : List Paper :=
  [⟨0, "Q", "q", "2020-01-01", 0⟩, ⟨1, "P1", "p", "2020-01-01", 1000⟩,
    ⟨2, "P2", "p", "2020-01-01", 1000⟩]

def rowClock : List ℚ := [1, 1/2, 1/2]

/-- A clock that advances past the 3-year cutoff between the first and the
second `datetime.now()` call of one ranking call. -/
def advancingClock : ℕ → ℤ := fun k => if k = 0 then 1000 else 2100

/-- C7 fails as stated: under `advancingClock`, two candidates with the same
publication instant and the same base score receive different hybrid scores
(`1/2 + 1/20` vs `1/2 + 0`), so no single evaluation moment `today`
reproduces the call's scores — `datetime.now()` is read once per candidate
inside `calculate_date_boost`, not once per ranking call. -/
theorem hybrid_scores_c7_counterexample :
    ¬ ∃ today : ℤ, hybrid_scores corpusClock rowClock 0 (fun _ => today)
        = hybrid_scores corpusClock rowClock 0 advancingClock := by
  rintro ⟨t, h⟩
  have hb1 : dateBoost (1000 - 1000) = 1/20 := by norm_num [dateBoost]
  have hb2 : dateBoost (2100 - 1000) = 0 := by norm_num [dateBoost]
  simp only [hybrid_scores, List.enum, List.enumFrom, List.filter, calculate_date_boost,
    corpusClock, rowClock, advancingClock, hb1, hb2] at h
  simp at h
  obtain ⟨h1, h2⟩ := h
  norm_num [dateBoost] at h1 h2
  by_cases ht : 1095 < t - 1000
  · rw [if_pos ht] at h1
    norm_num at h1
  · rw [if_neg ht] at h1
    rw [max_eq_left (h2 (by omega))] at h1
    norm_num at h1

/-- C7 (amended): each candidate's boost uses that candidate's own clock
read; whenever the clock does not advance during the ranking call, every
candidate shares the single evaluation moment `clock 0`. -/
theorem hybrid_scores_c7_const (df : List Paper) (row : List ℚ) (index : ℤ)
    (clock : ℕ → ℤ) (h : ∀ k, clock k = clock 0) :
    hybrid_scores df row index clock
      = hybrid_scores df row index (fun _ => clock 0) := by
  simp only [hybrid_scores]
  exact List.map_congr_left (fun q _ => by rw [h q.1])

/-- Witness for `hybrid_scores_c7_const` with a (provably) constant clock. -/
theorem hybrid_scores_c7_const_witness :
    hybrid_scores corpusClock rowClock 0 (fun k => 2000 + min (k : ℤ) 0)
      = hybrid_scores corpusClock rowClock 0 (fun _ => 2000 + min ((0 : ℕ) : ℤ) 0) :=
  hybrid_scores_c7_const corpusClock rowClock 0 (fun k => 2000 + min (k : ℤ) 0)
    (fun k => by show 2000 + min (k : ℤ) 0 = 2000 + min ((0 : ℕ) : ℤ) 0; omega)

/-! ## Similarity index builder (`create_similarity_matrix`, modeling.py lines 45-60)

The source delegates to scikit-learn's
`TfidfVectorizer(stop_words='english', ngram_range=(1, 2), min_df=3)` and
`cosine_similarity`.  The embedding works at the level the claims need:

* a document is its token list (sklearn's tokenizer splitting of the
  `combined_text` column is outside the embedding);
* its terms are the unigrams and bigrams over the tokens left after
  stop-word removal; the vocabulary keeps the distinct terms occurring in
  at least `min_df = 3` documents (`fit_transform` raises
  `ValueError("empty vocabulary ...")` iff this set is empty — also when
  there are no documents or no terms at all);
* the TF-IDF weight of term `t` in document `d` is
  `count(t, d) * idf(t)`.  sklearn's smoothed idf is
  `ln((1 + N)/(1 + df(t))) + 1 ≥ 1`; since that value is irrational, the
  embedding keeps `idf` as a parameter, assumed non-negative where needed —
  every theorem below therefore covers sklearn's actual idf;
* sklearn L2-normalizes the rows and multiplies, i.e. the float matrix
  entry is `dot(vᵢ, vⱼ) / (‖vᵢ‖·‖vⱼ‖)`, with the convention that an
  all-zero row (a document all of whose terms were pruned) keeps norm 1 and
  hence yields entry 0.  `√·` is not computable, so the embedding stores
  each entry as its *square* with the zero-guard made explicit
  (`cosine_sq`): because every TF-IDF vector is non-negative, the true
  float entry is the non-negative square root of the stored rational, so
  symmetry, non-negativity and the value at the diagonal transfer. -/

/-- Unigrams plus adjacent bigrams of the tokens that survive stop-word
removal (`ngram_range=(1, 2)`, `stop_words='english'` — the concrete
stop-word list is the parameter `stop`). -/
def content_terms (stop : List String) (doc : List String) : List String :=
  let kept := doc.filter (fun t => decide (t ∉ stop))
  kept ++ (kept.zip kept.tail).map (fun p => p.1 ++ " " ++ p.2)

/-- Number of documents of the corpus containing term `t`. -/
def doc_freq (stop : List String) (docs : List (List String)) (t : String) : ℕ :=
  (docs.filter (fun d => decide (t ∈ content_terms stop d))).length

/-- The fitted vocabulary: distinct terms kept by `min_df = 3`. -/
def vocabulary (stop : List String) (docs : List (List String)) : List String :=
  ((docs.map (content_terms stop)).flatten).dedup.filter
    (fun t => decide (3 ≤ doc_freq stop docs t))

/-- The TF-IDF vector of one document over the fitted vocabulary
(coordinate order = vocabulary order; entry = raw count × idf weight). -/
def tfidf_vector (stop : List String) (idf : String → ℚ)
    (docs : List (List String)) (doc : List String) : List ℚ :=
  (vocabulary stop docs).map
    (fun t => ((content_terms stop doc).count t : ℚ) * idf t)

/-- Dot product of two rational vectors (zip-truncated, as in numpy for
equal-length vectors). -/
def dotQ (v w : List ℚ) : ℚ := ((v.zip w).map (fun p => p.1 * p.2)).sum

/-- The square of a cosine-similarity entry, with sklearn's zero-norm
convention: an entry involving an all-zero vector is 0. -/
def cosine_sq (v w : List ℚ) : ℚ :=
  if dotQ v v = 0 ∨ dotQ w w = 0 then 0
  else (dotQ v w) ^ 2 / (dotQ v v * dotQ w w)

/-- `create_similarity_matrix(df)`: fit the vectorizer (raising — i.e.
`.error`, uncaught by this function and therefore surfaced to its caller —
iff the vocabulary is empty) and return the all-pairs cosine matrix, each
entry represented by its square (`cosine_sq`). -/
def create_similarity_matrix (stop : List String) (idf : String → ℚ)
    (docs : List (List String)) : Except String (List (List ℚ)) :=
  if (vocabulary stop docs).isEmpty then
    .error "empty vocabulary; perhaps the documents only contain stop words"
  else
    .ok (docs.map (fun di => docs.map (fun dj =>
      cosine_sq (tfidf_vector stop idf docs di) (tfidf_vector stop idf docs dj))))

/-! ## Facts about the similarity matrix -/

theorem dotQ_cons (a b : ℚ) (v w : List ℚ) :
    dotQ (a :: v) (b :: w) = a * b + dotQ v w := rfl

/-- The dot product is symmetric. -/
theorem dotQ_comm : ∀ (v w : List ℚ), dotQ v w = dotQ w v
  | [], [] => rfl
  | [], _ :: _ => rfl
  | _ :: _, [] => rfl
  | a :: v, b :: w => by
    rw [dotQ_cons, dotQ_cons, mul_comm, dotQ_comm v w]

/-- The dot product of entrywise non-negative vectors is non-negative. -/
theorem dotQ_nonneg {v w : List ℚ} (hv : ∀ x ∈ v, 0 ≤ x) (hw : ∀ y ∈ w, 0 ≤ y) :
    0 ≤ dotQ v w := by
  apply List.sum_nonneg
  intro q hq
  simp only [List.mem_map] at hq
  obtain ⟨p, hp, rfl⟩ := hq
  obtain ⟨h1, h2⟩ := List.of_mem_zip hp
  exact mul_nonneg (hv _ h1) (hw _ h2)

/-- TF-IDF vectors have non-negative entries when the idf weights are
non-negative (sklearn's smoothed idf is `≥ 1`). -/
theorem tfidf_vector_nonneg (stop : List String) (idf : String → ℚ)
    (docs : List (List String)) (doc : List String) (hidf : ∀ t, 0 ≤ idf t) :
    ∀ x ∈ tfidf_vector stop idf docs doc, 0 ≤ x := by
  intro x hx
  simp only [tfidf_vector, List.mem_map] at hx
  obtain ⟨t, _, rfl⟩ := hx
  exact mul_nonneg (by positivity) (hidf t)

/-- The squared cosine entry is symmetric. -/
theorem cosine_sq_comm (v w : List ℚ) : cosine_sq v w = cosine_sq w v := by
  unfold cosine_sq
  rw [dotQ_comm v w]
  by_cases h : dotQ v v = 0 ∨ dotQ w w = 0
  · rw [if_pos h, if_pos (Or.symm h)]
  · rw [if_neg h, if_neg (fun hc => h (Or.symm hc)), mul_comm]

/-- The diagonal squared entry of a non-degenerate vector is exactly 1. -/
theorem cosine_sq_self {v : List ℚ} (h : dotQ v v ≠ 0) : cosine_sq v v = 1 := by
  unfold cosine_sq
  rw [if_neg (by simp [h]), sq]
  exact div_self (mul_ne_zero h h)

/-! ## Claim C10: the ModelingFailure condition -/

/-- C10: `create_similarity_matrix` fails — the vectorizer's
"empty vocabulary" error, uncaught inside the function and therefore
surfaced to the caller — exactly when the fitted vocabulary is empty
(corpus too small for `min_df = 3`, or every term filtered out); with a
non-empty vocabulary it returns the matrix. -/
theorem create_similarity_matrix_c10 (stop : List String) (idf : String → ℚ)
    (docs : List (List String)) :
    (∃ msg, create_similarity_matrix stop idf docs = .error msg)
      ↔ vocabulary stop docs = [] := by
  unfold create_similarity_matrix
  by_cases h : (vocabulary stop docs).isEmpty
  · rw [if_pos h]
    simp only [List.isEmpty_eq_true] at h
    simp [h]
  · rw [if_neg h]
    simp only [List.isEmpty_eq_true] at h
    simp [h]

/-! ## Claim C5: shape, symmetry, non-negativity and diagonal of the matrix -/

/-- C5 (amended): whenever `create_similarity_matrix` succeeds and the idf
weights are non-negative (sklearn's smoothed idf is `≥ 1`), the matrix is
N×N, its entries are symmetric, the dot products underlying the entries are
non-negative (so the float entries, their quotients by positive norms, are
too), and the diagonal entry of every document whose TF-IDF vector is
non-degenerate equals 1 exactly.  The unamended claim is false: a document
all of whose terms were pruned by `min_df` has the zero vector and diagonal
entry 0 — see the counterexample. -/
theorem create_similarity_matrix_c5 (stop : List String) (idf : String → ℚ)
    (docs : List (List String)) (M : List (List ℚ))
    (hidf : ∀ t, 0 ≤ idf t)
    (hok : create_similarity_matrix stop idf docs = .ok M) :
    M.length = docs.length ∧
    (∀ r ∈ M, r.length = docs.length) ∧
    (∀ i j, (M.getD i []).getD j 0 = (M.getD j []).getD i 0) ∧
    (∀ i j, 0 ≤ dotQ (tfidf_vector stop idf docs (docs.getD i []))
        (tfidf_vector stop idf docs (docs.getD j []))) ∧
    (∀ i, i < docs.length →
      dotQ (tfidf_vector stop idf docs (docs.getD i []))
          (tfidf_vector stop idf docs (docs.getD i [])) ≠ 0 →
      (M.getD i []).getD i 0 = 1) := by
  unfold create_similarity_matrix at hok
  split at hok
  · cases hok
  · simp only [Except.ok.injEq] at hok
    subst hok
    have hentry : ∀ i j, i < docs.length → j < docs.length →
        (((docs.map (fun di => docs.map (fun dj =>
            cosine_sq (tfidf_vector stop idf docs di)
              (tfidf_vector stop idf docs dj)))).getD i []).getD j 0)
          = cosine_sq (tfidf_vector stop idf docs (docs.getD i []))
              (tfidf_vector stop idf docs (docs.getD j [])) := by
      intro i j hi hj
      rw [List.getD_eq_getElem _ [] (by simpa using hi), List.getElem_map]
      rw [List.getD_eq_getElem _ (0 : ℚ) (by simpa using hj), List.getElem_map]
      rw [List.getD_eq_getElem docs [] hi, List.getD_eq_getElem docs [] hj]
    have hzero : ∀ i j, docs.length ≤ i ∨ docs.length ≤ j →
        (((docs.map (fun di => docs.map (fun dj =>
            cosine_sq (tfidf_vector stop idf docs di)
              (tfidf_vector stop idf docs dj)))).getD i []).getD j 0) = 0 := by
      intro i j hij
      rcases hij with hi | hj
      · rw [List.getD_eq_default _ [] (by simpa using hi)]
        rfl
      · by_cases hi : i < docs.length
        · rw [List.getD_eq_getElem _ [] (by simpa using hi), List.getElem_map]
          rw [List.getD_eq_default _ (0 : ℚ) (by simpa using hj)]
        · rw [List.getD_eq_default _ [] (by simpa using hi)]
          rfl
    refine ⟨by simp, ?_, ?_, ?_, ?_⟩
    · intro r hr
      simp only [List.mem_map] at hr
      obtain ⟨d, _, rfl⟩ := hr
      simp
    · intro i j
      by_cases hi : i < docs.length
      · by_cases hj : j < docs.length
        · rw [hentry i j hi hj, hentry j i hj hi, cosine_sq_comm]
        · rw [hzero i j (Or.inr (by omega)), hzero j i (Or.inl (by omega))]
      · rw [hzero i j (Or.inl (by omega)), hzero j i (Or.inr (by omega))]
    · intro i j
      exact dotQ_nonneg (tfidf_vector_nonneg stop idf docs _ hidf)
        (tfidf_vector_nonneg stop idf docs _ hidf)
    · intro i hi hdot
      rw [hentry i i hi hi]
      exact cosine_sq_self hdot

/-- Fixture: three identical documents plus one document whose every term
occurs in only one document — so the fourth document's terms are all pruned
by `min_df = 3`, its TF-IDF vector is zero, while the vocabulary (and thus
the build) survives on the first three documents. -/
def docsZ : List (List String) :=
  [["apple", "pie"], ["apple", "pie"], ["apple", "pie"], ["zebra", "stripes"]]

/-- The matrix built on `docsZ` (with the idf parameter fixed at 1; whether
the diagonal is 1 does not depend on the idf values, only on the vector
being zero or not). -/
def tfidfMatrixZ : List (List ℚ) :=
  docsZ.map (fun di => docsZ.map (fun dj =>
    cosine_sq (tfidf_vector [] (fun _ => 1) docsZ di)
      (tfidf_vector [] (fun _ => 1) docsZ dj)))

/-- C5 fails as stated: on `docsZ` the build succeeds (the vocabulary
`["apple", "pie", "apple pie"]` is non-empty), yet the diagonal entry of
document 3 is 0, not 1 (its TF-IDF vector is `[0, 0, 0]`); document 0's
diagonal entry is 1 as usual. -/
theorem create_similarity_matrix_c5_counterexample :
    (create_similarity_matrix [] (fun _ => 1) docsZ).isOk = true ∧
    ((((create_similarity_matrix [] (fun _ => 1) docsZ).toOption.getD
        []).getD 3 []).getD 3 0 : ℚ) = 0 ∧
    ((((create_similarity_matrix [] (fun _ => 1) docsZ).toOption.getD
        []).getD 0 []).getD 0 0 : ℚ) = 1 := by
  have hok : create_similarity_matrix [] (fun _ => 1) docsZ = .ok tfidfMatrixZ := by
    unfold create_similarity_matrix tfidfMatrixZ
    rw [if_neg (by decide)]
  have h33 : (tfidfMatrixZ.getD 3 []).getD 3 0
      = cosine_sq (tfidf_vector [] (fun _ => 1) docsZ (docsZ.getD 3 []))
          (tfidf_vector [] (fun _ => 1) docsZ (docsZ.getD 3 [])) := by
    unfold tfidfMatrixZ
    rw [List.getD_eq_getElem _ [] (by simp [docsZ]), List.getElem_map,
      List.getD_eq_getElem _ (0 : ℚ) (by simp [docsZ]), List.getElem_map,
      List.getD_eq_getElem docsZ [] (by simp [docsZ])]
  have h00 : (tfidfMatrixZ.getD 0 []).getD 0 0
      = cosine_sq (tfidf_vector [] (fun _ => 1) docsZ (docsZ.getD 0 []))
          (tfidf_vector [] (fun _ => 1) docsZ (docsZ.getD 0 [])) := by
    unfold tfidfMatrixZ
    rw [List.getD_eq_getElem _ [] (by simp [docsZ]), List.getElem_map,
      List.getD_eq_getElem _ (0 : ℚ) (by simp [docsZ]), List.getElem_map,
      List.getD_eq_getElem docsZ [] (by simp [docsZ])]
  have hd3 : docsZ.getD 3 [] = ["zebra", "stripes"] := by decide
  have hd0 : docsZ.getD 0 [] = ["apple", "pie"] := by decide
  have hvoc : vocabulary [] docsZ = ["apple", "pie", "apple pie"] := by decide
  have hv3 : tfidf_vector [] (fun _ => 1) docsZ ["zebra", "stripes"] = [0, 0, 0] := by
    rw [tfidf_vector, hvoc]
    have c1 : (content_terms [] ["zebra", "stripes"]).count "apple" = 0 := by decide
    have c2 : (content_terms [] ["zebra", "stripes"]).count "pie" = 0 := by decide
    have c3 : (content_terms [] ["zebra", "stripes"]).count "apple pie" = 0 := by decide
    simp [c1, c2, c3]
  have hv0 : tfidf_vector [] (fun _ => 1) docsZ ["apple", "pie"] = [1, 1, 1] := by
    rw [tfidf_vector, hvoc]
    have c1 : (content_terms [] ["apple", "pie"]).count "apple" = 1 := by decide
    have c2 : (content_terms [] ["apple", "pie"]).count "pie" = 1 := by decide
    have c3 : (content_terms [] ["apple", "pie"]).count "apple pie" = 1 := by decide
    simp [c1, c2, c3]
  refine ⟨by rw [hok]; rfl, ?_, ?_⟩
  · rw [hok]
    show ((tfidfMatrixZ.getD 3 []).getD 3 0 : ℚ) = 0
    rw [h33, hd3, hv3]
    norm_num [cosine_sq, dotQ]
  · rw [hok]
    show ((tfidfMatrixZ.getD 0 []).getD 0 0 : ℚ) = 1
    rw [h00, hd0, hv0]
    norm_num [cosine_sq, dotQ]

/-- Witness for `create_similarity_matrix_c5` on `docsZ`. -/
theorem create_similarity_matrix_c5_witness :
    tfidfMatrixZ.length = docsZ.length ∧
    (∀ r ∈ tfidfMatrixZ, r.length = docsZ.length) ∧
    (∀ i j, (tfidfMatrixZ.getD i []).getD j 0 = (tfidfMatrixZ.getD j []).getD i 0) ∧
    (∀ i j, 0 ≤ dotQ (tfidf_vector [] (fun _ => 1) docsZ (docsZ.getD i []))
        (tfidf_vector [] (fun _ => 1) docsZ (docsZ.getD j []))) ∧
    (∀ i, i < docsZ.length →
      dotQ (tfidf_vector [] (fun _ => 1) docsZ (docsZ.getD i []))
          (tfidf_vector [] (fun _ => 1) docsZ (docsZ.getD i [])) ≠ 0 →
      (tfidfMatrixZ.getD i []).getD i 0 = 1) :=
  create_similarity_matrix_c5 [] (fun _ => 1) docsZ tfidfMatrixZ
    (fun _ => by norm_num)
    (by unfold create_similarity_matrix tfidfMatrixZ; rw [if_neg (by decide)])

end RPR
